import Mathlib

set_option maxRecDepth 8000
set_option exponentiation.threshold 1200

/- Shallow embedding of src/main.cpp (easy-gameengine).

   Modelling conventions:
   - std::string is modelled as List Char; string literals appear as
     "…".data.
   - std::map is modelled as an association list with insert-or-update
     semantics (mapInsert) and key lookup (mapFind); the sorted iteration
     order of std::map is not modelled, since no verified property depends
     on iteration order.
   - operations in which the C++ code can crash (out-of-bounds element
     access, an uncaught exception from std::stoi, invoking an empty
     std::function) return Option, with none marking the crash / undefined
     behavior.
   - SDL texture handles are opaque; they are modelled as natural numbers
     (the preload pass hands out consecutive numbers, one per load call).
   - the SDL_Renderer argument threaded through command functions is never
     inspected by the modelled code and is dropped. -/

/-- Keys of an association list, compared with decidable equality.
    Models std::map::find / std::map::at. -/
def mapFind {κ α : Type} [DecidableEq κ] (k : κ) : List (κ × α) → Option α
  | [] => none
  | (k2, v) :: rest => if k = k2 then some v else mapFind k rest

/-- Insert-or-update for an association list: replaces the value at the
    first occurrence of the key, or appends a new entry. Models the write
    through std::map::operator[]. -/
def mapInsert {κ α : Type} [DecidableEq κ] (k : κ) (v : α) : List (κ × α) → List (κ × α)
  | [] => [(k, v)]
  | (k2, v2) :: rest => if k = k2 then (k, v) :: rest else (k2, v2) :: mapInsert k v rest

/-- Number of entries of an association list carrying a given key. -/
def countKey {κ α : Type} [DecidableEq κ] (k : κ) : List (κ × α) → Nat
  | [] => 0
  | (k2, _) :: rest => (if k2 = k then 1 else 0) + countKey k rest

/-- Split a character list at every occurrence of the separator, keeping
    empty fragments. Models boost::split with is_any_of on one character. -/
def splitOnChar (c : Char) : List Char → List (List Char)
  | [] => [[]]
  | x :: xs =>
    if x = c then [] :: splitOnChar c xs
    else
      match splitOnChar c xs with
      | [] => [[x]]
      | t :: ts => (x :: t) :: ts

/-- Whitespace recognized by strtod / strtol (C isspace in the default
    locale). -/
def isSpaceC (c : Char) : Bool :=
  c == ' ' || c == '\t' || c == '\n' || c == '\x0b' || c == '\x0c' || c == '\r'

/-- Numeric value of a list of decimal digit characters. -/
def natOfDigits : List Char → Nat → Nat
  | [], acc => acc
  | c :: cs, acc => natOfDigits cs (acc * 10 + (c.toNat - '0'.toNat))

/-- Model of std::stoi: skip leading whitespace, read an optional sign and
    a nonempty run of decimal digits; none models the uncaught
    std::invalid_argument (no digits) or std::out_of_range (value outside
    the 32-bit int range) exception, both of which terminate the program
    at the call sites in src/main.cpp. -/
def stoi (s : List Char) : Option Int :=
  let s1 := s.dropWhile isSpaceC
  let neg : Bool := match s1 with
    | '-' :: _ => true
    | _ => false
  let s2 : List Char := match s1 with
    | '-' :: r => r
    | '+' :: r => r
    | _ => s1
  let ds := s2.takeWhile Char.isDigit
  if ds = [] then none
  else
    let v0 : Int := (natOfDigits ds 0 : Int)
    let v : Int := if neg then -v0 else v0
    if v < -(2 ^ 31) ∨ (2 ^ 31 : Int) ≤ v then none else some v

/-- Case-insensitive test for an inf or nan prefix, the special forms
    accepted by strtod. -/
def ciPrefixInfNan (s : List Char) : Bool :=
  match s with
  | a :: b :: c :: _ =>
    (a.toLower == 'i' && b.toLower == 'n' && c.toLower == 'f') ||
    (a.toLower == 'n' && b.toLower == 'a' && c.toLower == 'n')
  | _ => false

/-- Hexadecimal digit test for the strtod hex-float form. -/
def isHexDigitC (c : Char) : Bool :=
  c.isDigit || ('a' ≤ c && c ≤ 'f') || ('A' ≤ c && c ≤ 'F')

/-- Numeric value of a list of hexadecimal digit characters. -/
def natOfHexDigits : List Char → Nat → Nat
  | [], acc => acc
  | c :: cs, acc =>
    natOfHexDigits cs
      (acc * 16 +
        (if c.isDigit then c.toNat - '0'.toNat
         else if 'a' ≤ c && c ≤ 'f' then c.toNat - 'a'.toNat + 10
         else c.toNat - 'A'.toNat + 10))

/-- Exponent part of a strtod number: when the input starts with the given
    marker (lower or upper case) followed by an optional sign and at least
    one digit, its signed value; otherwise 0, since strtod leaves an
    incomplete exponent unconsumed, so it contributes nothing. -/
def parseExpPart (lo hi : Char) (s : List Char) : Int :=
  match s with
  | [] => 0
  | e :: rest =>
    if e = lo ∨ e = hi then
      let neg : Bool := match rest with
        | '-' :: _ => true
        | _ => false
      let rest2 : List Char := match rest with
        | '-' :: r => r
        | '+' :: r => r
        | _ => rest
      let ds := rest2.takeWhile Char.isDigit
      if ds = [] then 0
      else if neg then -(natOfDigits ds 0 : Int) else (natOfDigits ds 0 : Int)
    else 0

/-- Mantissa and base-10 exponent of the decimal numeric prefix that
    strtod consumes (digits, optional dot and fraction digits, optional
    exponent): the parsed magnitude is the mantissa times 10 to the
    exponent, exactly. -/
def decMantExp (s2 : List Char) : Nat × Int :=
  let intd := s2.takeWhile Char.isDigit
  let r1 := s2.dropWhile Char.isDigit
  let frac : List Char :=
    match r1 with
    | '.' :: r => r.takeWhile Char.isDigit
    | _ => []
  let r2 : List Char :=
    match r1 with
    | '.' :: r => r.dropWhile Char.isDigit
    | _ => r1
  (natOfDigits (intd ++ frac) 0, parseExpPart 'e' 'E' r2 - (frac.length : Int))

/-- Mantissa and base-2 exponent of the hexadecimal numeric prefix after
    0x (hex digits, optional dot and hex fraction digits, optional p
    exponent): the parsed magnitude is the mantissa times 2 to the
    exponent, exactly. With no hex digit at all strtod consumes just the
    leading 0, so the value is 0. -/
def hexMantExp (s3 : List Char) : Nat × Int :=
  let intd := s3.takeWhile isHexDigitC
  let r1 := s3.dropWhile isHexDigitC
  let frac : List Char :=
    match r1 with
    | '.' :: r => r.takeWhile isHexDigitC
    | _ => []
  let r2 : List Char :=
    match r1 with
    | '.' :: r => r.dropWhile isHexDigitC
    | _ => r1
  if intd = [] ∧ frac = [] then (0, 0)
  else
    (natOfHexDigits (intd ++ frac) 0,
     parseExpPart 'p' 'P' r2 - 4 * (frac.length : Int))

/-- Whether the exact magnitude (mantissa times base to the exponent) is
    one that strtod returns without setting ERANGE. Zero is always fine.
    Otherwise the magnitude, rounded to nearest-even, must not overflow
    the largest finite double - overflow happens from the rounding
    boundary 2 to the 970 times (2 to the 54 minus 1) upward - and must
    not underflow to a subnormal or to zero, on which glibc sets ERANGE
    and std::stod throws std::out_of_range: magnitudes below the rounding
    boundary (2 to the 53 minus 1) divided by 2 to the 1075 underflow.
    For a nonnegative exponent the value is at least 1, so only overflow
    is tested. All tests are exact integer comparisons. -/
def rangeOk (base m : Nat) (q : Int) : Bool :=
  if m = 0 then true
  else
    if 0 ≤ q then
      let v := m * base ^ q.toNat
      decide (v < 2 ^ 970 * (2 ^ 54 - 1))
    else
      let d := base ^ (-q).toNat
      decide (m < 2 ^ 970 * (2 ^ 54 - 1) * d) &&
      decide ((2 ^ 53 - 1) * d ≤ m * 2 ^ 1075)

/-- Range test for the numeric prefix of a syntactically accepted token
    (past whitespace and sign): hex-float forms scale by powers of 2,
    decimal forms by powers of 10. -/
def stodRangeOk (s2 : List Char) : Bool :=
  match s2 with
  | '0' :: x :: s3 =>
    if x == 'x' || x == 'X' then
      let p := hexMantExp s3
      rangeOk 2 p.1 p.2
    else
      let p := decMantExp s2
      rangeOk 10 p.1 p.2
  | _ =>
    let p := decMantExp s2
    rangeOk 10 p.1 p.2

/-- Whether std::stod(s) succeeds without throwing. strtod must convert a
    nonempty prefix: after optional whitespace and an optional sign the
    input continues with a decimal digit, a dot followed by a digit, or
    (case-insensitively) inf or nan; otherwise std::stod raises
    std::invalid_argument. For the numeric forms the converted value must
    also be within range: on overflow, and on underflow to a subnormal or
    to zero, std::stod raises std::out_of_range. parse_param catches both
    exceptions alike. -/
def stodOk (s : List Char) : Bool :=
  let s1 := s.dropWhile isSpaceC
  let s2 : List Char := match s1 with
    | '-' :: r => r
    | '+' :: r => r
    | _ => s1
  match s2 with
  | [] => false
  | c :: rest =>
    ciPrefixInfNan s2 ||
    ((c.isDigit ||
      (c == '.' && (match rest with | d :: _ => d.isDigit | [] => false))) &&
     stodRangeOk s2)

/- Parameter from src/main.cpp lines 55 to 57: a pair of a type tag
   (NUMBER, STRING or SYMBOL) and a raw value, both strings. -/
abbrev Parameter := List Char × List Char

/-- CommandName from src/main.cpp lines 20 to 30. -/
inductive CommandName where
  | LABEL
  | IMAGE
  | CLEAR
  | TEXT
  | GOTO
  | SET
  | INPUT
  | IF
  | RETURN
deriving DecidableEq, Repr

abbrev Command := CommandName × List Parameter

/-- COMMAND_MAP from src/main.cpp lines 33 to 43: command-name vocabulary. -/
def COMMAND_MAP : List (List Char × CommandName) :=
  [("label".data, CommandName.LABEL),
   ("image".data, CommandName.IMAGE),
   ("clear".data, CommandName.CLEAR),
   ("text".data, CommandName.TEXT),
   ("goto".data, CommandName.GOTO),
   ("set".data, CommandName.SET),
   ("input".data, CommandName.INPUT),
   ("if".data, CommandName.IF),
   ("return".data, CommandName.RETURN)]

/-- parse_param from src/main.cpp lines 101 to 122. The C++ code first
    tries std::stod on the whole token; on an exception it inspects
    source.front() and source.back(), which on the empty token is an
    out-of-bounds access (undefined behavior), modelled as none. -/
def parse_param (source : List Char) : Option Parameter :=
  if stodOk source then some ("NUMBER".data, source)
  else
    match source with
    | [] => none
    | _ :: _ =>
      if source.head? = some '\"' ∧ source.getLast? = some '\"' then
        some ("STRING".data, (source.drop 1).dropLast)
      else
        some ("SYMBOL".data, source)

/-- First tab-separated token of a line (tokens[0] in parse). -/
def firstTok (l : List Char) : List Char :=
  match splitOnChar '\t' l with
  | [] => []
  | t :: _ => t

/-- Classify each parameter token of a line in order; none as soon as one
    token makes parse_param crash. -/
def mapParams : List (List Char) → Option (List Parameter)
  | [] => some []
  | t :: ts =>
    match parse_param t, mapParams ts with
    | some p, some ps => some (p :: ps)
    | _, _ => none

/-- Body of parse from src/main.cpp lines 125 to 166, after the newline
    split: processes lines in order. The result pairs the command list
    with the list of diagnostics (each diagnostic records the offending
    first token of a line whose command name is unknown, as written to
    std::cerr). A none result models the crash inside parse_param. -/
def parseLines : List (List Char) → Option (List Command × List (List Char))
  | [] => some ([], [])
  | line :: rest =>
    if line = [] then parseLines rest
    else
      match splitOnChar '\t' line with
      | [] => none
      | t0 :: ts =>
        match mapFind t0 COMMAND_MAP with
        | none => (parseLines rest).map (fun p => (p.1, t0 :: p.2))
        | some name =>
          match mapParams ts with
          | none => none
          | some ps => (parseLines rest).map (fun p => ((name, ps) :: p.1, p.2))

/-- parse from src/main.cpp lines 125 to 166: split the script on newline
    characters, then process line by line. -/
def parse (source : List Char) : Option (List Command × List (List Char)) :=
  parseLines (splitOnChar '\n' source)

/-- SDL_Rect destination rectangle: the four int fields set by
    command_image (src/main.cpp lines 179 to 183). -/
structure SDL_Rect where
  x : Int
  y : Int
  w : Int
  h : Int
deriving DecidableEq, Repr

/-- ImageState from src/main.cpp lines 45 to 48: a texture handle plus a
    destination rectangle. -/
structure ImageState where
  tex : Nat
  rect : SDL_Rect
deriving DecidableEq, Repr

/-- EngineState from src/main.cpp lines 50 to 53: textures keyed by source
    path, visible image placements keyed by identifier. -/
structure EngineState where
  textures : List (List Char × Nat)
  draw_images : List (List Char × ImageState)
deriving DecidableEq, Repr

/-- CommandFn from src/main.cpp line 59, with the unused renderer dropped:
    a command behavior takes the engine state and the parameter list and
    yields a status and the updated state; none models a crash. -/
abbrev CommandFn := EngineState → List Parameter → Option (Int × EngineState)

/-- command_nop from src/main.cpp lines 61 to 63: returns 0, state
    untouched. -/
def command_nop : CommandFn := fun state _ => some (0, state)

/-- command_image from src/main.cpp lines 169 to 188. The C++ code indexes
    params[0], params[1] and later params[2] to params[5] without a bounds
    check and converts the coordinate values with std::stoi without a
    handler; an out-of-bounds access or a stoi exception is modelled as
    none. When the path has no cached texture it logs and returns 1 with
    the state unchanged; on success it writes the placement through
    draw_images[id] = imgst (insert or update). -/
def command_image : CommandFn := fun state params =>
  match params with
  | p0 :: p1 :: rest =>
    match mapFind p1.2 state.textures with
    | none => some (1, state)
    | some tex =>
      match rest with
      | a :: b :: c :: d :: _ =>
        match stoi a.2, stoi b.2, stoi c.2, stoi d.2 with
        | some x, some y, some w, some h =>
          some (0, { state with
                     draw_images :=
                       mapInsert p0.2 ⟨tex, ⟨x, y, w, h⟩⟩ state.draw_images })
        | _, _, _, _ => none
      | _ => none
  | _ => none

/-- COMMAND_FN_MAP from src/main.cpp lines 65 to 74, as initialized: a
    default no-op behavior for eight of the nine command kinds. The
    initializer has no entry for CLEAR. -/
def COMMAND_FN_MAP : List (CommandName × CommandFn) :=
  [(CommandName.LABEL, command_nop),
   (CommandName.IMAGE, command_nop),
   (CommandName.TEXT, command_nop),
   (CommandName.GOTO, command_nop),
   (CommandName.SET, command_nop),
   (CommandName.INPUT, command_nop),
   (CommandName.IF, command_nop),
   (CommandName.RETURN, command_nop)]

/-- The command registry after main performs
    COMMAND_FN_MAP[IMAGE] = command_image (src/main.cpp line 216). -/
def registryAfterSetup : List (CommandName × CommandFn) :=
  mapInsert CommandName.IMAGE command_image COMMAND_FN_MAP

/-- Dispatch of one command through the registry, src/main.cpp line 289.
    When the kind has no entry, operator[] inserts an empty std::function
    and the call raises std::bad_function_call, terminating the program:
    modelled as none. -/
def dispatch (reg : List (CommandName × CommandFn)) (e : EngineState)
    (cmd : Command) : Option (Int × EngineState) :=
  match mapFind cmd.1 reg with
  | none => none
  | some f => f e cmd.2

/-- The per-occurrence validity test of the preload pass, src/main.cpp
    lines 239 to 259: an IMAGE command with a second parameter of type
    STRING whose path names an existing file (the filesystem is the fs
    oracle) yields that path; every other command, or a failing check,
    is logged and skipped. -/
def validImageRef (fs : List Char → Bool) : Command → Option (List Char)
  | (name, params) =>
    if name = CommandName.IMAGE then
      match params with
      | _ :: p2 :: _ =>
        if p2.1 = "STRING".data then
          if fs p2.2 then some p2.2 else none
        else none
      | _ => none
    else none

/-- Preload pass from src/main.cpp lines 238 to 265: walk the command
    list; each valid image reference calls IMG_LoadTexture (handles are
    numbered consecutively by the counter) and stores the handle under the
    path. The second component records the paths passed to
    IMG_LoadTexture, in call order. -/
def preloadFrom (fs : List Char → Bool) :
    Nat → EngineState → List Command → EngineState × List (List Char)
  | _, st, [] => (st, [])
  | counter, st, cmd :: rest =>
    match validImageRef fs cmd with
    | none => preloadFrom fs counter st rest
    | some path =>
      let st2 := { st with textures := mapInsert path counter st.textures }
      let r := preloadFrom fs (counter + 1) st2 rest
      (r.1, path :: r.2)

/-- Driver state of the main loop: the current command index
    (src/main.cpp line 198) and the engine state. -/
structure DriverState where
  command_index : Nat
  engine : EngineState
deriving DecidableEq, Repr

/-- A rendered frame: the placements drawn by the loop at src/main.cpp
    lines 294 to 297. -/
abbrev Frame := List (List Char × ImageState)

/-- The render pass draws every current placement. -/
def render (e : EngineState) : Frame := e.draw_images

/-- One iteration of the main loop (src/main.cpp lines 272 to 304),
    quit handling aside: when commands remain, dispatch exactly one and
    increment the index unconditionally; always render afterwards. A none
    result models a crash inside dispatch. -/
def tick (cmds : List Command) (st : DriverState) : Option (DriverState × Frame) :=
  if h : st.command_index < cmds.length then
    match dispatch registryAfterSetup st.engine (cmds.get ⟨st.command_index, h⟩) with
    | none => none
    | some r => some (⟨st.command_index + 1, r.2⟩, render r.2)
  else
    some (st, render st.engine)

/-- Run a given number of loop iterations. -/
def runTicks (cmds : List Command) (st : DriverState) : Nat → Option DriverState
  | 0 => some st
  | n + 1 =>
    match tick cmds st with
    | none => none
    | some r => runTicks cmds r.1 n

/-- Safety condition on the parameters of an IMAGE command, relative to
    the preloaded texture map: exactly the parameter lists on which
    command_image completes without crashing (either the path lookup
    fails, which returns 1, or all six parameters are present with
    integer-parseable coordinates). -/
def imageSafe (txts : List (List Char × Nat)) (ps : List Parameter) : Bool :=
  match ps with
  | _ :: p1 :: rest =>
    match mapFind p1.2 txts with
    | none => true
    | some _ =>
      match rest with
      | a :: b :: c :: d :: _ =>
        (stoi a.2).isSome && (stoi b.2).isSome && (stoi c.2).isSome && (stoi d.2).isSome
      | _ => false
  | _ => false

/-- Commands whose dispatch through the registry built by main completes:
    every kind except CLEAR (which has no registry entry, so dispatching
    it terminates the program), with IMAGE additionally subject to
    imageSafe. -/
def dispatchSafe (txts : List (List Char × Nat)) (c : Command) : Bool :=
  match c.1 with
  | CommandName.CLEAR => false
  | CommandName.IMAGE => imageSafe txts c.2
  | _ => true

theorem splitOnChar_ne_nil (c : Char) (s : List Char) : splitOnChar c s ≠ [] := by
  induction s with
  | nil => simp [splitOnChar]
  | cons x xs ih =>
    simp only [splitOnChar]
    split
    · simp
    · split
      · simp
      · simp

theorem splitOnChar_sep (c : Char) (a b : List Char) (ha : c ∉ a) :
    splitOnChar c (a ++ c :: b) = a :: splitOnChar c b := by
  induction a with
  | nil => simp [splitOnChar]
  | cons x xs ih =>
    have hx : ¬ x = c := fun h => ha (h ▸ List.mem_cons_self x xs)
    have ha2 : c ∉ xs := fun h => ha (List.mem_cons_of_mem _ h)
    simp only [List.cons_append, splitOnChar, if_neg hx, List.append_eq]
    rw [ih ha2]

theorem parse_param_isSome (t : List Char) (h : t ≠ []) :
    (parse_param t).isSome = true := by
  cases t with
  | nil => exact absurd rfl h
  | cons x xs =>
    simp only [parse_param]
    split
    · rfl
    · split <;> rfl

theorem mapParams_total (ts : List (List Char)) (h : ∀ t ∈ ts, t ≠ []) :
    ∃ ps, mapParams ts = some ps ∧ ps.length = ts.length := by
  induction ts with
  | nil => exact ⟨[], rfl, rfl⟩
  | cons t ts ih =>
    obtain ⟨ps, hps, hlen⟩ := ih (fun u hu => h u (List.mem_cons_of_mem _ hu))
    have ht := parse_param_isSome t (h t (List.mem_cons_self t ts))
    obtain ⟨p, hp⟩ := Option.isSome_iff_exists.mp ht
    exact ⟨p :: ps, by simp [mapParams, hp, hps], by simp [hlen]⟩

theorem mapFind_mapInsert_self {κ α : Type} [DecidableEq κ] (k : κ) (v : α)
    (m : List (κ × α)) : mapFind k (mapInsert k v m) = some v := by
  induction m with
  | nil => simp [mapInsert, mapFind]
  | cons e rest ih =>
    obtain ⟨k2, v2⟩ := e
    by_cases h : k = k2
    · simp [mapInsert, if_pos h, mapFind]
    · simp [mapInsert, if_neg h, mapFind, ih]

theorem mapFind_mapInsert_ne {κ α : Type} [DecidableEq κ] (k k2 : κ) (v : α)
    (m : List (κ × α)) (h : ¬ k2 = k) :
    mapFind k2 (mapInsert k v m) = mapFind k2 m := by
  induction m with
  | nil => simp [mapInsert, mapFind, h]
  | cons e rest ih =>
    obtain ⟨k3, v3⟩ := e
    by_cases hk : k = k3
    · subst hk
      simp [mapInsert, mapFind, h, ih]
    · simp [mapInsert, if_neg hk, mapFind, ih]

theorem countKey_mapInsert {κ α : Type} [DecidableEq κ] (k : κ) (v : α)
    (m : List (κ × α)) (h : countKey k m ≤ 1) :
    countKey k (mapInsert k v m) = 1 := by
  induction m with
  | nil => simp [mapInsert, countKey]
  | cons e rest ih =>
    obtain ⟨k2, v2⟩ := e
    by_cases hk : k = k2
    · subst hk
      simp [countKey] at h
      simp [mapInsert, countKey]
      omega
    · have hk2 : ¬ k2 = k := fun hkk => hk hkk.symm
      simp only [countKey, if_neg hk2] at h
      simp only [mapInsert, if_neg hk, countKey, if_neg hk2]
      simpa using ih (by omega)

theorem command_image_not_loaded (e : EngineState) (p0 p1 : Parameter)
    (rest : List Parameter) (h : mapFind p1.2 e.textures = none) :
    command_image e (p0 :: p1 :: rest) = some (1, e) := by
  simp [command_image, h]

theorem command_image_loaded (e : EngineState) (p0 p1 a b c d : Parameter)
    (r2 : List Parameter) (tex : Nat) (x y w hv : Int)
    (ht : mapFind p1.2 e.textures = some tex)
    (hx : stoi a.2 = some x) (hy : stoi b.2 = some y)
    (hw : stoi c.2 = some w) (hh : stoi d.2 = some hv) :
    command_image e (p0 :: p1 :: a :: b :: c :: d :: r2) =
      some (0, ⟨e.textures, mapInsert p0.2 ⟨tex, ⟨x, y, w, hv⟩⟩ e.draw_images⟩) := by
  simp [command_image, ht, hx, hy, hw, hh]

theorem command_nop_textures (e : EngineState) (ps : List Parameter) (r : Int)
    (e2 : EngineState) (h : command_nop e ps = some (r, e2)) :
    e2.textures = e.textures := by
  simp only [command_nop, Option.some.injEq, Prod.mk.injEq] at h
  rw [← h.2]

theorem command_image_textures (e : EngineState) (ps : List Parameter) (r : Int)
    (e2 : EngineState) (h : command_image e ps = some (r, e2)) :
    e2.textures = e.textures := by
  simp only [command_image] at h
  repeat' split at h
  all_goals simp_all
  all_goals rw [← h.2]

theorem dispatch_ok (txts : List (List Char × Nat)) (e : EngineState) (c : Command)
    (he : e.textures = txts) (hs : dispatchSafe txts c = true) :
    ∃ r e2, dispatch registryAfterSetup e c = some (r, e2) ∧ e2.textures = txts := by
  obtain ⟨name, ps⟩ := c
  cases name
  case CLEAR => simp [dispatchSafe] at hs
  case IMAGE =>
    have hd : dispatch registryAfterSetup e (CommandName.IMAGE, ps) = command_image e ps := rfl
    rw [hd]
    simp only [dispatchSafe] at hs
    match ps, hs with
    | p0 :: p1 :: rest, hs =>
      simp only [imageSafe] at hs
      cases hm : mapFind p1.2 txts with
      | none =>
        refine ⟨1, e, ?_, he⟩
        exact command_image_not_loaded e p0 p1 rest (he ▸ hm)
      | some tex =>
        rw [hm] at hs
        match rest, hs with
        | a :: b :: cc :: d :: r2, hs =>
          simp only [Bool.and_eq_true, Option.isSome_iff_exists] at hs
          obtain ⟨⟨⟨⟨x, hx⟩, y, hy⟩, w, hw⟩, hv, hh⟩ := hs
          refine ⟨0, _, command_image_loaded e p0 p1 a b cc d r2 tex x y w hv
            (he ▸ hm) hx hy hw hh, ?_⟩
          exact he
  all_goals
    exact ⟨0, e, rfl, he⟩

theorem runTicks_ok (cmds : List Command) (e0 : EngineState)
    (hsafe : ∀ c ∈ cmds, dispatchSafe e0.textures c = true) :
    ∀ (n k : Nat) (e : EngineState), e.textures = e0.textures →
      k + n ≤ cmds.length →
      ∃ e2, runTicks cmds ⟨k, e⟩ n = some ⟨k + n, e2⟩ ∧ e2.textures = e0.textures := by
  intro n
  induction n with
  | zero => intro k e he _; exact ⟨e, rfl, he⟩
  | succ n ih =>
    intro k e he hkn
    have hk : k < cmds.length := by omega
    have hc : cmds.get ⟨k, hk⟩ ∈ cmds := List.get_mem _ _ _
    obtain ⟨r, e2, hd, he2⟩ := dispatch_ok e0.textures e (cmds.get ⟨k, hk⟩) he (hsafe _ hc)
    obtain ⟨e3, h3, he3⟩ := ih (k + 1) e2 he2 (by omega)
    refine ⟨e3, ?_, he3⟩
    have hstep : runTicks cmds ⟨k, e⟩ (n + 1) = runTicks cmds ⟨k + 1, e2⟩ n := by
      simp only [List.get_eq_getElem] at hd
      simp [runTicks, tick, hk, hd]
    rw [hstep, h3]
    have : k + 1 + n = k + (n + 1) := by omega
    rw [this]

theorem parseLines_total (lines : List (List Char))
    (H : ∀ l ∈ lines, l ≠ [] →
      (mapFind (firstTok l) COMMAND_MAP).isSome = true ∧
      ∀ t ∈ (splitOnChar '\t' l).tail, t ≠ []) :
    ∃ cmds, parseLines lines = some (cmds, []) ∧
      cmds.map Prod.fst =
        lines.filterMap
          (fun l => if l = [] then none else mapFind (firstTok l) COMMAND_MAP) ∧
      cmds.map (fun c => c.2.length) =
        (lines.filter (fun l => !l.isEmpty)).map
          (fun l => (splitOnChar '\t' l).length - 1) := by
  induction lines with
  | nil => exact ⟨[], rfl, rfl, rfl⟩
  | cons l rest ih =>
    obtain ⟨cmds, hp, hfst, hcnt⟩ :=
      ih (fun u hu => H u (List.mem_cons_of_mem _ hu))
    by_cases hl : l = []
    · subst hl
      refine ⟨cmds, ?_, ?_, ?_⟩
      · simpa [parseLines] using hp
      · simpa [List.filterMap_cons] using hfst
      · simpa [List.filter_cons] using hcnt
    · obtain ⟨hfind, htoks⟩ := H l (List.mem_cons_self l rest) hl
      cases hsp : splitOnChar '\t' l with
      | nil => exact absurd hsp (splitOnChar_ne_nil _ _)
      | cons t0 ts =>
        have hft : firstTok l = t0 := by simp [firstTok, hsp]
        rw [hft] at hfind
        obtain ⟨name, hname⟩ := Option.isSome_iff_exists.mp hfind
        have hts : ∀ t ∈ ts, t ≠ [] := by
          intro t htm
          exact htoks t (by rw [hsp]; exact htm)
        obtain ⟨ps, hps, hpslen⟩ := mapParams_total ts hts
        refine ⟨(name, ps) :: cmds, ?_, ?_, ?_⟩
        · simp [parseLines, hl, hsp, hname, hps, hp]
        · simp only [List.map_cons, List.filterMap_cons, if_neg hl, hft, hname]
          rw [hfst]
        · have hlemp : (!l.isEmpty) = true := by
            cases l
            · exact absurd rfl hl
            · rfl
          simp only [List.map_cons, List.filter_cons, hlemp, if_pos trivial]
          rw [hcnt, hsp]
          simp [hpslen]

/-- C1: the claim states that every kind of the closed vocabulary resolves
    to a behavior in the command registry and that dispatch never halts the
    program. The initializer of COMMAND_FN_MAP omits CLEAR, and the
    registration step in main only overrides IMAGE, so the lookup for
    CLEAR fails and dispatching a parsed clear command invokes an empty
    std::function, which terminates the program (modelled as none). -/
theorem c1_clear_missing_from_registry :
    mapFind CommandName.CLEAR registryAfterSetup = none ∧
    ∀ e : EngineState, dispatch registryAfterSetup e (CommandName.CLEAR, []) = none :=
  ⟨rfl, fun _ => rfl⟩

/-- C2 counterexample: with path p preloaded, an IMAGE command whose third
    parameter has the NUMBER-classified value .5 (std::stod accepts it but
    std::stoi raises an uncaught exception on it) crashes the dispatch
    (none) instead of being logged and treated as a no-op, so a malformed
    parameter type is fatal, contradicting the claim. -/
theorem c2_cex_stoi_crash :
    command_image ⟨[("p".data, 0)], []⟩
      [("SYMBOL".data, "i".data), ("STRING".data, "p".data),
       ("NUMBER".data, ".5".data), ("NUMBER".data, "0".data),
       ("NUMBER".data, "9".data), ("NUMBER".data, "9".data)] = none := by
  rfl

/-- C2 amended: an IMAGE dispatch that fails the resource lookup is the
    one gracefully handled error (logged, returns 1, state unchanged,
    execution advances); malformed parameter lists are not guarded:
    fewer than two parameters is an out-of-bounds access, and when the
    path is preloaded, fewer than six parameters or a coordinate on which
    std::stoi raises are fatal (modelled as none). -/
theorem c2_amended_image_param_errors :
    ∀ (e : EngineState) (ps : List Parameter),
      (ps.length < 2 → command_image e ps = none) ∧
      (∀ p0 p1 rest, ps = p0 :: p1 :: rest → mapFind p1.2 e.textures = none →
        command_image e ps = some (1, e)) ∧
      (∀ p0 p1 rest tex, ps = p0 :: p1 :: rest →
        mapFind p1.2 e.textures = some tex → rest.length < 4 →
        command_image e ps = none) ∧
      (∀ p0 p1 a b c d r2 tex, ps = p0 :: p1 :: a :: b :: c :: d :: r2 →
        mapFind p1.2 e.textures = some tex →
        (stoi a.2 = none ∨ stoi b.2 = none ∨ stoi c.2 = none ∨ stoi d.2 = none) →
        command_image e ps = none) := by
  intro e ps
  refine ⟨?_, ?_, ?_, ?_⟩
  · intro hlen
    match ps, hlen with
    | [], _ => rfl
    | [p0], _ => rfl
  · intro p0 p1 rest hshape hfind
    subst hshape
    exact command_image_not_loaded e p0 p1 rest hfind
  · intro p0 p1 rest tex hshape ht hlen
    subst hshape
    match rest, hlen with
    | [], _ => simp [command_image, ht]
    | [a], _ => simp [command_image, ht]
    | [a, b], _ => simp [command_image, ht]
    | [a, b, c], _ => simp [command_image, ht]
  · intro p0 p1 a b c d r2 tex hshape ht hbad
    subst hshape
    rcases hbad with ha | hb | hc | hd
    · simp [command_image, ht, ha]
    · cases hsa : stoi a.2 <;> simp [command_image, ht, hsa, hb]
    · cases hsa : stoi a.2 <;> cases hsb : stoi b.2 <;>
        simp [command_image, ht, hsa, hsb, hc]
    · cases hsa : stoi a.2 <;> cases hsb : stoi b.2 <;> cases hsc : stoi c.2 <;>
        simp [command_image, ht, hsa, hsb, hsc, hd]

/-- C2 amended witness: the missing-resource case on a concrete state and
    parameter list, discharged through the amended theorem. -/
theorem c2_amended_witness :
    command_image ⟨[], []⟩
      [("SYMBOL".data, "i".data), ("STRING".data, "p".data)] = some (1, ⟨[], []⟩) :=
  (c2_amended_image_param_errors ⟨[], []⟩
    [("SYMBOL".data, "i".data), ("STRING".data, "p".data)]).2.1
    ("SYMBOL".data, "i".data) ("STRING".data, "p".data) [] rfl rfl

/-- C3 counterexample: on the empty token the source performs front() and
    back() on an empty std::string, an out-of-bounds access with undefined
    behavior, so classification of the empty token has no defined result
    (none) rather than SYMBOL with empty value: classify is not total. -/
theorem c3_cex_empty_token : parse_param [] = none := rfl

/-- C3 amended: on every non-empty token, classification is total (and it
    is deterministic, being a pure function of the token); the empty token
    is excluded, since the source leaves its classification undefined. -/
theorem c3_amended_classify_total_nonempty :
    ∀ t : List Char, t ≠ [] → (parse_param t).isSome = true :=
  parse_param_isSome

/-- C3 amended witness at the concrete token foo. -/
theorem c3_amended_witness : (parse_param "foo".data).isSome = true :=
  c3_amended_classify_total_nonempty "foo".data (by decide)

/-- C5 counterexample: two IMAGE commands referencing the same existing
    path a.png make the preload pass call IMG_LoadTexture twice (the load
    trace lists the path twice, and the second handle overwrites the
    first), so a repeated reference is not loaded exactly once. -/
theorem c5_cex_duplicate_load :
    (preloadFrom (fun p => p == "a.png".data) 0 ⟨[], []⟩
      [(CommandName.IMAGE, [("SYMBOL".data, "x".data), ("STRING".data, "a.png".data)]),
       (CommandName.IMAGE, [("SYMBOL".data, "y".data), ("STRING".data, "a.png".data)])]).2
      = ["a.png".data, "a.png".data] := by
  rfl

/-- C5 amended: the preload pass performs one IMG_LoadTexture call per
    IMAGE command whose second parameter is a STRING naming an existing
    file (the load trace equals the list of valid references in command
    order, with repeats), not one per distinct path; the textures map,
    being keyed by path, ends up containing exactly the validly referenced
    paths, later loads overwriting earlier handles. -/
theorem c5_amended_preload_per_reference :
    ∀ (fs : List Char → Bool) (cmds : List Command) (counter : Nat) (st : EngineState),
      (preloadFrom fs counter st cmds).2 = cmds.filterMap (validImageRef fs) ∧
      ∀ p, (mapFind p (preloadFrom fs counter st cmds).1.textures).isSome = true ↔
        ((mapFind p st.textures).isSome = true ∨ p ∈ cmds.filterMap (validImageRef fs)) := by
  intro fs cmds
  induction cmds with
  | nil =>
    intro counter st
    exact ⟨rfl, fun p => by simp [preloadFrom]⟩
  | cons cmd rest ih =>
    intro counter st
    cases hv : validImageRef fs cmd with
    | none =>
      constructor
      · simp only [preloadFrom, hv]
        rw [(ih counter st).1]
        simp [List.filterMap_cons, hv]
      · intro p
        simp only [preloadFrom, hv]
        rw [(ih counter st).2 p]
        simp [List.filterMap_cons, hv]
    | some path =>
      constructor
      · simp only [preloadFrom, hv]
        rw [(ih (counter + 1) ⟨mapInsert path counter st.textures, st.draw_images⟩).1]
        simp [List.filterMap_cons, hv]
      · intro p
        simp only [preloadFrom, hv]
        rw [(ih (counter + 1) ⟨mapInsert path counter st.textures, st.draw_images⟩).2 p]
        simp only [List.filterMap_cons, hv, List.mem_cons]
        by_cases hp : p = path
        · subst hp
          simp [mapFind_mapInsert_self]
        · rw [mapFind_mapInsert_ne path p counter st.textures hp]
          tauto

/-- C6: executing an IMAGE command whose source path has no preloaded
    texture logs, returns 1 and leaves the engine state unchanged; with
    the path preloaded and well-formed parameters it returns 0 and inserts
    or overwrites (never duplicates) the placement at the identifier with
    the given rectangle, so re-execution with the same identifier and
    another rectangle replaces the placement: after the update the
    identifier maps to the new rectangle and carries a single entry. -/
theorem c6_image_insert_or_overwrite :
    ∀ (e : EngineState) (p0 p1 : Parameter) (rest : List Parameter),
      (mapFind p1.2 e.textures = none →
        command_image e (p0 :: p1 :: rest) = some (1, e)) ∧
      (∀ a b c d r2 tex x y w hv,
        rest = a :: b :: c :: d :: r2 →
        mapFind p1.2 e.textures = some tex →
        stoi a.2 = some x → stoi b.2 = some y →
        stoi c.2 = some w → stoi d.2 = some hv →
        command_image e (p0 :: p1 :: rest) =
          some (0, ⟨e.textures, mapInsert p0.2 ⟨tex, ⟨x, y, w, hv⟩⟩ e.draw_images⟩) ∧
        mapFind p0.2 (mapInsert p0.2 ⟨tex, ⟨x, y, w, hv⟩⟩ e.draw_images) =
          some ⟨tex, ⟨x, y, w, hv⟩⟩ ∧
        (countKey p0.2 e.draw_images ≤ 1 →
          countKey p0.2 (mapInsert p0.2 ⟨tex, ⟨x, y, w, hv⟩⟩ e.draw_images) = 1)) := by
  intro e p0 p1 rest
  refine ⟨fun h => command_image_not_loaded e p0 p1 rest h, ?_⟩
  intro a b c d r2 tex x y w hv hshape ht hx hy hw hh
  subst hshape
  exact ⟨command_image_loaded e p0 p1 a b c d r2 tex x y w hv ht hx hy hw hh,
    mapFind_mapInsert_self _ _ _,
    fun hcnt => countKey_mapInsert _ _ _ hcnt⟩

/-- C6 witness: re-executing on a state that already holds a placement for
    identifier i replaces it with the new rectangle (10, 20, 100, 150). -/
theorem c6_witness :
    command_image ⟨[("p".data, 5)], [("i".data, ⟨9, ⟨0, 0, 0, 0⟩⟩)]⟩
      [("SYMBOL".data, "i".data), ("STRING".data, "p".data),
       ("NUMBER".data, "10".data), ("NUMBER".data, "20".data),
       ("NUMBER".data, "100".data), ("NUMBER".data, "150".data)] =
      some (0, ⟨[("p".data, 5)], [("i".data, ⟨5, ⟨10, 20, 100, 150⟩⟩)]⟩) := by
  have h := ((c6_image_insert_or_overwrite
    ⟨[("p".data, 5)], [("i".data, ⟨9, ⟨0, 0, 0, 0⟩⟩)]⟩
    ("SYMBOL".data, "i".data) ("STRING".data, "p".data)
    [("NUMBER".data, "10".data), ("NUMBER".data, "20".data),
     ("NUMBER".data, "100".data), ("NUMBER".data, "150".data)]).2
    ("NUMBER".data, "10".data) ("NUMBER".data, "20".data)
    ("NUMBER".data, "100".data) ("NUMBER".data, "150".data) [] 5 10 20 100 150
    rfl rfl (by decide) (by decide) (by decide) (by decide)).1
  exact h.trans (by decide)

/-- C7 counterexample: the script consisting of the single line label
    followed by a trailing tab has one non-blank line starting with a
    known command name, but its second token is empty, so parse_param
    performs the out-of-bounds access on the empty token and parsing has
    no defined result (none) instead of producing one command with one
    parameter. -/
theorem c7_cex_trailing_tab : parse "label\t".data = none := rfl

/-- C7 amended: for every script whose non-blank lines start with a known
    command name AND whose parameter tokens are all non-empty, parse
    produces exactly one command per non-blank line, in source order (the
    command kinds are the per-line lookups, in order), each with parameter
    count equal to the tab-separated token count of its line minus one,
    with no diagnostics; and the script consisting only of two newline
    characters parses to the empty sequence. -/
theorem c7_amended_roundtrip :
    (∀ src : List Char,
      (∀ l ∈ splitOnChar '\n' src, l ≠ [] →
        (mapFind (firstTok l) COMMAND_MAP).isSome = true ∧
        ∀ t ∈ (splitOnChar '\t' l).tail, t ≠ []) →
      ∃ cmds, parse src = some (cmds, []) ∧
        cmds.map Prod.fst =
          (splitOnChar '\n' src).filterMap
            (fun l => if l = [] then none else mapFind (firstTok l) COMMAND_MAP) ∧
        cmds.map (fun c => c.2.length) =
          ((splitOnChar '\n' src).filter (fun l => !l.isEmpty)).map
            (fun l => (splitOnChar '\t' l).length - 1)) ∧
    parse "\n\n".data = some ([], []) := by
  constructor
  · intro src hH
    exact parseLines_total (splitOnChar '\n' src) hH
  · rfl

/-- C7 amended witness at the concrete two-line script label TAB x
    NEWLINE image: two commands, one per non-blank line, with parameter
    counts one and zero. -/
theorem c7_amended_witness :
    ∃ cmds, parse "label\tx\nimage".data = some (cmds, []) ∧
      cmds.map Prod.fst =
        (splitOnChar '\n' "label\tx\nimage".data).filterMap
          (fun l => if l = [] then none else mapFind (firstTok l) COMMAND_MAP) ∧
      cmds.map (fun c => c.2.length) =
        ((splitOnChar '\n' "label\tx\nimage".data).filter (fun l => !l.isEmpty)).map
          (fun l => (splitOnChar '\t' l).length - 1) :=
  c7_amended_roundtrip.1 "label\tx\nimage".data (by decide)

/-- C8: a non-blank line (with no embedded newline) whose first token is
    not a known command name yields zero commands and one diagnostic
    naming the bad first token, and the rest of the script parses exactly
    as it would on its own: the commands are those of the remaining lines
    and the diagnostic is prepended to theirs. -/
theorem c8_unknown_command_line :
    ∀ (bad rest : List Char), bad ≠ [] → '\n' ∉ bad →
      mapFind (firstTok bad) COMMAND_MAP = none →
      parse (bad ++ '\n' :: rest) =
        (parse rest).map (fun p => (p.1, firstTok bad :: p.2)) := by
  intro bad rest hne hnl hfind
  unfold parse
  rw [splitOnChar_sep '\n' bad rest hnl]
  cases hsp : splitOnChar '\t' bad with
  | nil => exact absurd hsp (splitOnChar_ne_nil _ _)
  | cons t0 ts =>
    have hft : firstTok bad = t0 := by simp [firstTok, hsp]
    rw [hft] at hfind ⊢
    simp [parseLines, hne, hsp, hfind]

/-- C8 witness: the spec example line bogus TAB foo followed by a valid
    label line parses to the single label command plus the diagnostic
    naming bogus. -/
theorem c8_witness :
    parse ("bogus\tfoo".data ++ '\n' :: "label".data) =
      some ([(CommandName.LABEL, [])], ["bogus".data]) := by
  rw [c8_unknown_command_line "bogus\tfoo".data "label".data (by decide) (by decide)
    (by decide)]
  rfl

/-- C9 counterexample: a parsed script consisting of the single command
    clear (N = 1) does not reach the drained state after one tick: the
    dispatch finds no registry entry for CLEAR and terminates the program
    (none), so the driver does not increment past it. -/
theorem c9_cex_clear_crash :
    runTicks [(CommandName.CLEAR, [])] ⟨0, ⟨[], []⟩⟩ 1 = none := rfl

/-- C9 amended: provided every dispatched command completes (no CLEAR
    command, and IMAGE commands satisfy imageSafe for the preloaded
    textures), the driver executes at most one command per tick,
    increments the index unconditionally even when a command fails with a
    non-zero status, so after n ticks (n at most N) the index is exactly
    n, reaching drained after exactly N command-executing ticks; and on
    every tick at or past the end it executes nothing, leaves the state
    unchanged, and still renders the current placements. -/
theorem c9_amended_driver :
    ∀ (cmds : List Command) (e0 : EngineState),
      (∀ c ∈ cmds, dispatchSafe e0.textures c = true) →
      (∀ n, n ≤ cmds.length →
        ∃ e, runTicks cmds ⟨0, e0⟩ n = some ⟨n, e⟩) ∧
      (∀ st : DriverState, cmds.length ≤ st.command_index →
        tick cmds st = some (st, render st.engine)) := by
  intro cmds e0 hs
  constructor
  · intro n hn
    obtain ⟨e2, h2, _⟩ := runTicks_ok cmds e0 hs n 0 e0 rfl (by omega)
    exact ⟨e2, by simpa using h2⟩
  · intro st hst
    unfold tick
    rw [dif_neg (by omega)]

/-- C9 amended witness: one safe label command, one tick, index 1. -/
theorem c9_amended_witness :
    ∃ e, runTicks [(CommandName.LABEL, [])] ⟨0, ⟨[], []⟩⟩ 1 = some ⟨1, e⟩ :=
  (c9_amended_driver [(CommandName.LABEL, [])] ⟨[], []⟩ (by decide)).1 1 (by decide)

/-- C10: every behavior reachable through the registry built by main (the
    no-op for seven kinds and command_image for IMAGE) leaves the textures
    map unchanged whenever it completes; only the placements map is ever
    mutated. -/
theorem c10_textures_never_mutated :
    ∀ (k : CommandName) (f : CommandFn),
      mapFind k registryAfterSetup = some f →
      ∀ (e : EngineState) (ps : List Parameter) (r : Int) (e2 : EngineState),
        f e ps = some (r, e2) → e2.textures = e.textures := by
  intro k f hf e ps r e2 hr
  cases k with
  | CLEAR =>
    exact Option.noConfusion (show (none : Option CommandFn) = some f from hf)
  | IMAGE =>
    obtain rfl :=
      (Option.some.inj
        (show (some command_image : Option CommandFn) = some f from hf)).symm
    exact command_image_textures e ps r e2 hr
  | LABEL =>
    obtain rfl :=
      (Option.some.inj
        (show (some command_nop : Option CommandFn) = some f from hf)).symm
    exact command_nop_textures e ps r e2 hr
  | TEXT =>
    obtain rfl :=
      (Option.some.inj
        (show (some command_nop : Option CommandFn) = some f from hf)).symm
    exact command_nop_textures e ps r e2 hr
  | GOTO =>
    obtain rfl :=
      (Option.some.inj
        (show (some command_nop : Option CommandFn) = some f from hf)).symm
    exact command_nop_textures e ps r e2 hr
  | SET =>
    obtain rfl :=
      (Option.some.inj
        (show (some command_nop : Option CommandFn) = some f from hf)).symm
    exact command_nop_textures e ps r e2 hr
  | INPUT =>
    obtain rfl :=
      (Option.some.inj
        (show (some command_nop : Option CommandFn) = some f from hf)).symm
    exact command_nop_textures e ps r e2 hr
  | IF =>
    obtain rfl :=
      (Option.some.inj
        (show (some command_nop : Option CommandFn) = some f from hf)).symm
    exact command_nop_textures e ps r e2 hr
  | RETURN =>
    obtain rfl :=
      (Option.some.inj
        (show (some command_nop : Option CommandFn) = some f from hf)).symm
    exact command_nop_textures e ps r e2 hr

/-- C10 witness: the IMAGE behavior, run successfully on a concrete state,
    preserves the textures map. -/
theorem c10_witness :
    (EngineState.mk [("p".data, 5)]
        [("i".data, ⟨5, ⟨1, 2, 3, 4⟩⟩)]).textures =
      (EngineState.mk [("p".data, 5)] []).textures :=
  c10_textures_never_mutated CommandName.IMAGE command_image rfl
    (EngineState.mk [("p".data, 5)] [])
    [("SYMBOL".data, "i".data), ("STRING".data, "p".data),
     ("NUMBER".data, "1".data), ("NUMBER".data, "2".data),
     ("NUMBER".data, "3".data), ("NUMBER".data, "4".data)]
    0 (EngineState.mk [("p".data, 5)] [("i".data, ⟨5, ⟨1, 2, 3, 4⟩⟩)])
    (by decide)
